import Mathlib

/-!
Shallow embedding of the Nebius provider adapter
(`src/core/llm/llms/Nebius.ts`): message normalization (`_convertMessage`),
request construction (`_convertArgs`), endpoint resolution (`_getEndpoint`),
the chat streaming consumer (`_streamChat`) and full-text completion
(`_complete`), together with theorems settling the specification claims.

Roles and wire tags are dynamic strings in the TypeScript source; they are
embedded as `String`.  Numeric option fields (temperature, penalties, ...)
are passed through verbatim by the code, so their numeric representation is
immaterial; they are embedded as `Option Int`.
-/

namespace Nebius

/-- A content part of an internal chat message: either a text segment or an
image reference (`{ type: "text" | "imageUrl", text?, imageUrl? }`). -/
inductive MessagePart where
  | text (t : String)
  | imageUrl (url : String)
deriving DecidableEq, Repr

/-- The `type` tag of a part, as the dynamic string the source reads. -/
def MessagePart.typeTag : MessagePart → String
  | .text _ => "text"
  | .imageUrl _ => "imageUrl"

/-- The optional `text` field of a part (`part.text`); image parts have
no `text` field (undefined). -/
def MessagePart.textField : MessagePart → Option String
  | .text t => some t
  | .imageUrl _ => none

/-- Whether a part is a text part (the negation of `item.type !== "text"`). -/
def MessagePart.isText : MessagePart → Bool
  | .text _ => true
  | .imageUrl _ => false

/-- Content of an internal chat message: a plain string or a part list. -/
inductive MessageContent where
  | str (s : String)
  | parts (ps : List MessagePart)
deriving DecidableEq, Repr

/-- Internal chat message (`ChatMessage`): a role tag and content. -/
structure ChatMessage where
  role : String
  content : MessageContent
deriving DecidableEq, Repr

/-- Wire-side image reference: the spread `{ ...part.imageUrl, detail: "low" }`. -/
structure WireImage where
  url : String
  detail : String
deriving DecidableEq, Repr

/-- Wire-side content part as built by `_convertMessage`'s mixed-media
branch: `{ type, text, image_url? }`. -/
structure WirePart where
  type : String
  text : Option String
  image_url : Option WireImage
deriving DecidableEq, Repr

/-- Wire-side message content: plain string or wire part list. -/
inductive WireContent where
  | str (s : String)
  | parts (ps : List WirePart)
deriving DecidableEq, Repr

/-- Wire-ready message produced by `_convertMessage`: the spread
`{ ...message, content }` keeps every other field (the role). -/
structure WireMessage where
  role : String
  content : WireContent
deriving DecidableEq, Repr

/-- The per-part closure inside `_convertMessage`'s mixed-media map:
start from `{ type: part.type, text: part.text }`; for image parts set
`image_url = { ...part.imageUrl, detail: "low" }` and rename the tag to
`"image_url"`. -/
def convertPart (part : MessagePart) : WirePart :=
  let msg : WirePart :=
    { type := part.typeTag, text := part.textField, image_url := none }
  match part with
  | .imageUrl u =>
      { msg with image_url := some { url := u, detail := "low" }, type := "image_url" }
  | .text _ => msg

/-- The flattening `message.content.map((item) => item.text).join("")`; `Array.join`
renders an undefined element as the empty string. -/
def joinTextFields (items : List MessagePart) : String :=
  String.join (items.map (fun item => item.textField.getD ""))

/-- The normalizer `_convertMessage`: pass a plain string through; collapse an all-text
part list to the joined string; otherwise convert each part to its wire
shape.  The spread `{ ...message, content }` preserves the role. -/
def convertMessage (message : ChatMessage) : WireMessage :=
  match message.content with
  | .str s => { role := message.role, content := .str s }
  | .parts items =>
      if items.all (fun item => item.isText) then
        { role := message.role, content := .str (joinTextFields items) }
      else
        { role := message.role, content := .parts (items.map convertPart) }

/-- Generic options bag (`CompletionOptions`).  Absent fields are `none`. -/
structure CompletionOptions where
  model : String
  maxTokens : Option Int := none
  temperature : Option Int := none
  topP : Option Int := none
  frequencyPenalty : Option Int := none
  presencePenalty : Option Int := none
  stop : Option (List String) := none
  stream : Option Bool := none
deriving DecidableEq, Repr

/-- The request payload built by `_convertArgs` (snake-case wire fields). -/
structure RequestBody where
  messages : List WireMessage
  model : String
  max_tokens : Option Int
  temperature : Option Int
  top_p : Option Int
  frequency_penalty : Option Int
  presence_penalty : Option Int
  stream : Bool
  stop : Option (List String)
deriving DecidableEq, Repr

/-- The request builder `_convertArgs`: normalize the messages, copy option fields verbatim,
default `stream` to true (`options.stream ?? true`), and cap the stop list
when `this.maxStopWords` is set (`options.stop?.slice(0, this.maxStopWords)`).
`maxStopWords` is the adapter field of the same name. -/
def convertArgs (maxStopWords : Option Nat) (options : CompletionOptions)
    (messages : List ChatMessage) : RequestBody :=
  { messages := messages.map convertMessage
    model := options.model
    max_tokens := options.maxTokens
    temperature := options.temperature
    top_p := options.topP
    frequency_penalty := options.frequencyPenalty
    presence_penalty := options.presencePenalty
    stream := options.stream.getD true
    stop :=
      match maxStopWords with
      | some n => options.stop.map (fun l => l.take n)
      | none => options.stop }

/-- The logical endpoint names accepted by `_getEndpoint`. -/
inductive Endpoint where
  | chatCompletions
  | completions
  | models
deriving DecidableEq, Repr

/-- The path string of an endpoint name, as in the TypeScript union type. -/
def Endpoint.name : Endpoint → String
  | .chatCompletions => "chat/completions"
  | .completions => "completions"
  | .models => "models"

/-- A resolved URL: `new URL(path, base)` is determined by the relative
path and the base URL, embedded as the pair of the two. -/
structure ResolvedUrl where
  path : String
  base : String
deriving DecidableEq, Repr

/-- The error message thrown by `_getEndpoint` when `apiBase` is unset. -/
def noApiBaseError : String :=
  "No API base URL provided. Please set the 'apiBase' option in config.json"

/-- The resolver `_getEndpoint`: throw when `this.apiBase` is falsy — the
guard `!this.apiBase` is a JavaScript falsiness check, so both an unset
and an empty-string base throw the configuration error; redirect the
legacy `completions` endpoint to `chat/completions`; otherwise resolve
the endpoint's own path against the base. -/
def getEndpoint (apiBase : Option String) (endpoint : Endpoint) :
    Except String ResolvedUrl :=
  match apiBase with
  | none => .error noApiBaseError
  | some base =>
      if base = "" then
        .error noApiBaseError
      else if endpoint = .completions then
        .ok { path := "chat/completions", base := base }
      else
        .ok { path := endpoint.name, base := base }

/-- One element of a streaming event's `choices` array: `{ delta? }`.
A delta is dynamically the same object shape as a complete message —
`{ role?, content? }` — so both are embedded as `WireDelta`. -/
structure WireDelta where
  role : Option String := none
  content : Option String := none
deriving DecidableEq, Repr

/-- A choice of a decoded streaming event: `{ delta?: { role?, content? } }`. -/
structure StreamChoice where
  delta : Option WireDelta
deriving DecidableEq, Repr

/-- A decoded streaming event: `{ choices?: [...] }`. -/
structure StreamEvent where
  choices : Option (List StreamChoice)
deriving DecidableEq, Repr

/-- The optional-chaining access `value.choices?.[0]?.delta`. -/
def firstChoiceDelta (value : StreamEvent) : Option WireDelta :=
  match value.choices with
  | some (c :: _) => c.delta
  | _ => none

/-- JavaScript truthiness of the optional `content` string: absent and
empty strings are falsy, every other string is truthy. -/
def contentTruthy : Option String → Bool
  | some s => !(s == "")
  | none => false

/-- A choice of a non-streaming response body: `{ message: {role, content} }`. -/
structure NonStreamChoice where
  message : WireDelta
deriving DecidableEq, Repr

/-- A parsed non-streaming response body: `{ choices: [...] }`. -/
structure NonStreamBody where
  choices : List NonStreamChoice
deriving DecidableEq, Repr

/-- The transport response, abstracted over the two ways the code reads it:
`response.json()` (`none` when the body is not valid JSON of that shape)
and the sequence of events decoded from it by the SSE decoder. -/
structure Response where
  jsonBody : Option NonStreamBody
  events : List StreamEvent
deriving DecidableEq, Repr

/-- The consumer `_streamChat`: build the request body, resolve the endpoint (throwing
before any network read when the base URL is unset), then either parse the
single JSON body and yield the first choice's message (`body.stream ===
false`), or filter the decoded events, yielding the first choice's delta
of each event whose delta carries truthy content. -/
def streamChat (maxStopWords : Option Nat) (apiBase : Option String)
    (options : CompletionOptions) (messages : List ChatMessage)
    (resp : Response) : Except String (List WireDelta) :=
  let body := convertArgs maxStopWords options messages
  match getEndpoint apiBase .chatCompletions with
  | .error e => .error e
  | .ok _ =>
      if body.stream = false then
        match resp.jsonBody with
        | none => .error "DecodeError: response body is not valid JSON"
        | some data =>
            match data.choices with
            | [] => .error "TypeError: no first choice in response"
            | c :: _ => .ok [c.message]
      else
        .ok (resp.events.filterMap (fun value =>
          match firstChoiceDelta value with
          | some d => if contentTruthy d.content then some d else none
          | none => none))

/-- The accumulation `completion += chunk.content` coerces the chunk content to a string;
JavaScript renders an undefined field as `"undefined"`. -/
def chunkContentStr (chunk : WireDelta) : String :=
  chunk.content.getD "undefined"

/-- The facade operation `_complete`: wrap the prompt as a single user message, drive
`_streamChat` to exhaustion, and accumulate each chunk's content. -/
def completeText (maxStopWords : Option Nat) (apiBase : Option String)
    (options : CompletionOptions) (prompt : String) (resp : Response) :
    Except String String :=
  match streamChat maxStopWords apiBase options
      [{ role := "user", content := .str prompt }] resp with
  | .error e => .error e
  | .ok chunks =>
      .ok (chunks.foldl (fun completion chunk => completion ++ chunkContentStr chunk) "")

/-- Spec-side predicate: the event's first choice has a delta whose
`content` is a non-empty text string. -/
def hasContentDelta (value : StreamEvent) : Bool :=
  match firstChoiceDelta value with
  | some d =>
      match d.content with
      | some s => s != ""
      | none => false
  | none => false

lemma streaming_filterMap_eq_filter (evs : List StreamEvent) :
    evs.filterMap (fun value =>
        match firstChoiceDelta value with
        | some d => if contentTruthy d.content then some d else none
        | none => none) =
      (evs.filter hasContentDelta).filterMap firstChoiceDelta := by
  rw [List.filterMap_filter]
  refine List.filterMap_congr (fun value _ => ?_)
  unfold hasContentDelta contentTruthy
  cases hfc : firstChoiceDelta value with
  | none => simp
  | some d => rfl

/-- C1: with a configured (non-empty) base URL, in streaming mode (the
effective streaming flag is not false), `streamChat` yields, in arrival
order, exactly the first-choice delta of each decoded event whose delta
carries non-empty text content, and emits nothing for the other events. -/
theorem streamChat_streaming_yields_content_deltas
    (msw : Option Nat) (base : String) (options : CompletionOptions)
    (messages : List ChatMessage) (resp : Response)
    (hbase : base ≠ "") (hs : options.stream ≠ some false) :
    streamChat msw (some base) options messages resp =
      .ok ((resp.events.filter hasContentDelta).filterMap firstChoiceDelta) := by
  have hb : (convertArgs msw options messages).stream = true := by
    cases h : options.stream with
    | none => simp [convertArgs, h]
    | some b =>
        cases b with
        | false => exact absurd h hs
        | true => simp [convertArgs, h]
  unfold streamChat
  simp [hb, getEndpoint, hbase, streaming_filterMap_eq_filter]

/-- C1 witness: a concrete event sequence with skipped events (no choices,
empty choices, missing delta content, empty content) and two yielded ones. -/
theorem streamChat_streaming_yields_content_deltas_witness :
    ({ model := "m" } : CompletionOptions).stream ≠ some false ∧
    streamChat none (some "https://api.studio.nebius.ai/v1/") { model := "m" } []
        { jsonBody := none,
          events := [
            { choices := some [{ delta := some { content := some "Hel" } }] },
            { choices := some [{ delta := some { role := some "assistant",
                                                 content := none } }] },
            { choices := none },
            { choices := some [] },
            { choices := some [{ delta := some { content := some "" } }] },
            { choices := some [{ delta := some { content := some "lo" } }] }] } =
      .ok [{ role := none, content := some "Hel" },
           { role := none, content := some "lo" }] :=
  ⟨by decide,
   (streamChat_streaming_yields_content_deltas none "https://api.studio.nebius.ai/v1/"
      { model := "m" } [] _ (by decide) (by decide)).trans (by rfl)⟩

/-- C2: with a configured (non-empty) base URL, when the effective
streaming flag in the built body is false (the caller set `stream` to
false), `streamChat` parses the JSON body, yields exactly the first
choice's complete message as its only item, and its result never depends
on the event stream. -/
theorem streamChat_nonstreaming_single_message
    (msw : Option Nat) (base : String) (options : CompletionOptions)
    (messages : List ChatMessage) (c : NonStreamChoice)
    (rest : List NonStreamChoice) (events events' : List StreamEvent)
    (hbase : base ≠ "") (hs : options.stream = some false) :
    streamChat msw (some base) options messages
        { jsonBody := some { choices := c :: rest }, events := events } =
      .ok [c.message] ∧
    streamChat msw (some base) options messages
        { jsonBody := some { choices := c :: rest }, events := events } =
      streamChat msw (some base) options messages
        { jsonBody := some { choices := c :: rest }, events := events' } := by
  unfold streamChat
  simp [hs, convertArgs, getEndpoint, hbase]

/-- C2 witness: the spec's example body
`{choices:[{message:{role:"assistant",content:"done"}}]}` yields that one
message, with a non-empty event stream left unconsumed. -/
theorem streamChat_nonstreaming_single_message_witness :
    ({ model := "m", stream := some false } : CompletionOptions).stream = some false ∧
    streamChat none (some "https://api.studio.nebius.ai/v1/")
        { model := "m", stream := some false } []
        { jsonBody := some { choices :=
            [{ message := { role := some "assistant", content := some "done" } }] },
          events := [{ choices := some [{ delta := some { content := some "ignored" } }] }] } =
      .ok [{ role := some "assistant", content := some "done" }] :=
  ⟨rfl,
   (streamChat_nonstreaming_single_message none "https://api.studio.nebius.ai/v1/"
      { model := "m", stream := some false } []
      { message := { role := some "assistant", content := some "done" } } []
      [{ choices := some [{ delta := some { content := some "ignored" } }] }] []
      (by decide) rfl).1⟩

lemma foldl_append_chunks (chunks : List WireDelta) :
    chunks.foldl (fun completion chunk => completion ++ chunkContentStr chunk) "" =
      String.join (chunks.map chunkContentStr) := by
  simp [String.join, List.foldl_map]

/-- C3: `completeText` wraps the prompt as a single user-role message,
drives `streamChat` on it to exhaustion, and returns the concatenation of
all yielded chunks' content in yield order. -/
theorem completeText_concatenates
    (msw : Option Nat) (apiBase : Option String) (options : CompletionOptions)
    (prompt : String) (resp : Response) (chunks : List WireDelta)
    (h : streamChat msw apiBase options
        [{ role := "user", content := .str prompt }] resp = .ok chunks) :
    completeText msw apiBase options prompt resp =
      .ok (String.join (chunks.map chunkContentStr)) := by
  unfold completeText
  rw [h]
  simp [foldl_append_chunks]

/-- A concrete response streaming the fragments "Hel", "lo", " world". -/
def respHelloWorld : Response :=
  { jsonBody := none,
    events := [
      { choices := some [{ delta := some { content := some "Hel" } }] },
      { choices := some [{ delta := some { content := some "lo" } }] },
      { choices := some [{ delta := some { content := some " world" } }] }] }

/-- C3 witness: streamed content fragments "Hel", "lo", " world" make
`completeText` return "Hello world". -/
theorem completeText_concatenates_witness :
    streamChat none (some "https://api.studio.nebius.ai/v1/") { model := "m" }
        [{ role := "user", content := .str "hi" }] respHelloWorld =
      .ok [{ role := none, content := some "Hel" },
           { role := none, content := some "lo" },
           { role := none, content := some " world" }] ∧
    completeText none (some "https://api.studio.nebius.ai/v1/") { model := "m" } "hi"
        respHelloWorld =
      .ok "Hello world" :=
  ⟨rfl,
   (completeText_concatenates none (some "https://api.studio.nebius.ai/v1/")
      { model := "m" } "hi" respHelloWorld
      [{ role := none, content := some "Hel" },
       { role := none, content := some "lo" },
       { role := none, content := some " world" }] rfl).trans (by rfl)⟩

/-- C4: with a configured `maxStopWords` the built request's stop list is
the original list truncated to that maximum — it keeps the first `n`
entries in their original order (positions below `n` are unchanged), has
length exactly `n` whenever the original list is at least that long, and
an absent list stays absent; with no maximum configured the stop list
passes through unmodified (`undefined` stays `undefined`). -/
theorem convertArgs_stop_truncation
    (options : CompletionOptions) (messages : List ChatMessage) :
    (∀ n l, options.stop = some l →
        (convertArgs (some n) options messages).stop = some (l.take n) ∧
        (∀ i, i < n → (l.take n)[i]? = l[i]?) ∧
        (n ≤ l.length → (l.take n).length = n)) ∧
    (∀ n, options.stop = none → (convertArgs (some n) options messages).stop = none) ∧
    (convertArgs none options messages).stop = options.stop := by
  refine ⟨fun n l hl => ⟨?_, fun i hi => List.getElem?_take_of_lt hi, fun hn => ?_⟩,
    fun n hl => ?_, ?_⟩
  · simp [convertArgs, hl]
  · simp [List.length_take, Nat.min_eq_left hn]
  · simp [convertArgs, hl]
  · simp [convertArgs]

/-- C4 witness: stop list ["a","b","c"] with maximum 2 becomes ["a","b"];
without a configured maximum it passes through. -/
theorem convertArgs_stop_truncation_witness :
    ({ model := "m", stop := some ["a", "b", "c"] } : CompletionOptions).stop =
      some ["a", "b", "c"] ∧
    (convertArgs (some 2) { model := "m", stop := some ["a", "b", "c"] } []).stop =
      some (["a", "b", "c"].take 2) ∧
    (["a", "b", "c"].take 2).length = 2 :=
  ⟨rfl,
   ((convertArgs_stop_truncation { model := "m", stop := some ["a", "b", "c"] } []).1
      2 ["a", "b", "c"] rfl).1,
   ((convertArgs_stop_truncation { model := "m", stop := some ["a", "b", "c"] } []).1
      2 ["a", "b", "c"] rfl).2.2 (by decide)⟩

lemma convertMessage_str_eq (r : String) (s : String) :
    convertMessage { role := r, content := .str s } =
      { role := r, content := .str s } := rfl

lemma convertMessage_parts_eq (r : String) (items : List MessagePart) :
    convertMessage { role := r, content := .parts items } =
      (if items.all (fun item => item.isText) then
        { role := r, content := .str (joinTextFields items) }
      else
        { role := r, content := .parts (items.map convertPart) }) := rfl

/-- C5: the normalizer passes plain-string content through unchanged; it
collapses an all-text part list to the in-order concatenation of the text
payloads; and normalizing the already-collapsed message again yields the
same string (idempotence). -/
theorem convertMessage_text_collapse :
    (∀ (m : ChatMessage) (s : String), m.content = .str s →
        convertMessage m = { role := m.role, content := .str s }) ∧
    (∀ (m : ChatMessage) (items : List MessagePart), m.content = .parts items →
        (∀ p ∈ items, p.isText = true) →
        convertMessage m = { role := m.role, content := .str (joinTextFields items) } ∧
        convertMessage { role := m.role, content := .str (joinTextFields items) } =
          { role := m.role, content := .str (joinTextFields items) }) := by
  refine ⟨fun m s hc => ?_, fun m items hc hall => ⟨?_, rfl⟩⟩
  · have hm : convertMessage m = convertMessage { role := m.role, content := .str s } := by
      rw [← hc]
    rw [hm, convertMessage_str_eq]
  · have hm : convertMessage m =
        convertMessage { role := m.role, content := .parts items } := by
      rw [← hc]
    rw [hm, convertMessage_parts_eq, if_pos (List.all_eq_true.mpr hall)]

/-- C5 witness: parts ["Hel", "lo"] collapse to "Hello", and collapsing
again is the identity. -/
theorem convertMessage_text_collapse_witness :
    (∀ p ∈ [MessagePart.text "Hel", MessagePart.text "lo"], p.isText = true) ∧
    convertMessage { role := "user", content := .parts [.text "Hel", .text "lo"] } =
      { role := "user", content := .str "Hello" } ∧
    convertMessage { role := "user", content := .str "Hello" } =
      { role := "user", content := .str "Hello" } :=
  ⟨by decide,
   (convertMessage_text_collapse.2
      { role := "user", content := .parts [.text "Hel", .text "lo"] }
      [.text "Hel", .text "lo"] rfl (by decide)).1.trans (by rfl),
   convertMessage_text_collapse.1 { role := "user", content := .str "Hello" } "Hello" rfl⟩

/-- C6: on mixed-media content the normalizer emits one wire part per
input part in the same order; a text part keeps its tag and text, and an
image part becomes an image reference carrying the fixed detail hint
"low" under the renamed tag "image_url". -/
theorem convertMessage_mixed_media
    (m : ChatMessage) (items : List MessagePart)
    (hc : m.content = .parts items)
    (hmix : ∃ p ∈ items, p.isText = false) :
    ∃ ps : List WirePart,
      convertMessage m = { role := m.role, content := .parts ps } ∧
      ps.length = items.length ∧
      (∀ (i : Nat) (t : String), items[i]? = some (MessagePart.text t) →
          ps[i]? = some ({ type := "text", text := some t,
                           image_url := none } : WirePart)) ∧
      (∀ (i : Nat) (u : String), items[i]? = some (MessagePart.imageUrl u) →
          ps[i]? = some ({ type := "image_url", text := none,
                           image_url := some { url := u, detail := "low" } } : WirePart)) := by
  refine ⟨items.map convertPart, ?_, by simp, fun i t hi => ?_, fun i u hi => ?_⟩
  · have hneg : ¬ items.all (fun item => item.isText) = true := by
      simp only [List.all_eq_true]
      intro hall
      obtain ⟨p, hp, hpt⟩ := hmix
      have := hall p hp
      rw [hpt] at this
      exact Bool.false_ne_true this
    have hm : convertMessage m =
        convertMessage { role := m.role, content := .parts items } := by
      rw [← hc]
    rw [hm, convertMessage_parts_eq, if_neg hneg]
  · rw [List.getElem?_map, hi]
    rfl
  · rw [List.getElem?_map, hi]
    rfl

/-- C6 witness: a text part followed by an image part converts to a text
wire part and an "image_url" part with detail "low", in order. -/
theorem convertMessage_mixed_media_witness :
    (∃ p ∈ [MessagePart.text "see", MessagePart.imageUrl "http://x/i.png"],
        p.isText = false) ∧
    ∃ ps : List WirePart,
      convertMessage
          { role := "user", content := .parts [.text "see", .imageUrl "http://x/i.png"] } =
        { role := "user", content := .parts ps } ∧
      ps.length = 2 ∧
      ps[0]? = some ({ type := "text", text := some "see", image_url := none } : WirePart) ∧
      ps[1]? = some ({ type := "image_url", text := none,
                       image_url := some { url := "http://x/i.png",
                                           detail := "low" } } : WirePart) := by
  refine ⟨⟨.imageUrl "http://x/i.png", by decide, rfl⟩, ?_⟩
  obtain ⟨ps, h1, h2, h3, h4⟩ := convertMessage_mixed_media
    { role := "user", content := .parts [.text "see", .imageUrl "http://x/i.png"] }
    [.text "see", .imageUrl "http://x/i.png"] rfl
    ⟨.imageUrl "http://x/i.png", by decide, rfl⟩
  exact ⟨ps, h1, h2, h3 0 "see" rfl, h4 1 "http://x/i.png" rfl⟩

/-- C7: when the caller leaves the streaming flag unspecified, the built
request's `stream` field is true; when the caller specifies it, the
specified value is used. -/
theorem convertArgs_stream_default
    (msw : Option Nat) (options : CompletionOptions) (messages : List ChatMessage) :
    (options.stream = none → (convertArgs msw options messages).stream = true) ∧
    (∀ b, options.stream = some b → (convertArgs msw options messages).stream = b) := by
  constructor
  · intro h
    simp [convertArgs, h]
  · intro b h
    simp [convertArgs, h]

/-- C7 witness: an unspecified flag becomes true; an explicit false stays
false. -/
theorem convertArgs_stream_default_witness :
    ({ model := "m" } : CompletionOptions).stream = none ∧
    (convertArgs none { model := "m" } []).stream = true ∧
    (convertArgs none { model := "m", stream := some false } []).stream = false :=
  ⟨rfl,
   (convertArgs_stream_default none { model := "m" } []).1 rfl,
   (convertArgs_stream_default none { model := "m", stream := some false } []).2 false rfl⟩

/-- C8: with a configured (non-empty) base URL, the legacy "completions"
operation resolves to the "chat/completions" path relative to that base
URL (a silent redirect), while "chat/completions" and "models" resolve
to their own paths relative to the base URL. -/
theorem getEndpoint_paths (base : String) (hbase : base ≠ "") :
    getEndpoint (some base) .completions =
      .ok { path := "chat/completions", base := base } ∧
    getEndpoint (some base) .chatCompletions =
      .ok { path := "chat/completions", base := base } ∧
    getEndpoint (some base) .models = .ok { path := "models", base := base } := by
  refine ⟨?_, ?_, ?_⟩ <;> simp [getEndpoint, Endpoint.name, hbase]

/-- C8 witness: at the provider's default base URL, all three operation
names resolve to their paths, with "completions" redirected. -/
theorem getEndpoint_paths_witness :
    ("https://api.studio.nebius.ai/v1/" : String) ≠ "" ∧
    getEndpoint (some "https://api.studio.nebius.ai/v1/") .completions =
      .ok { path := "chat/completions", base := "https://api.studio.nebius.ai/v1/" } ∧
    getEndpoint (some "https://api.studio.nebius.ai/v1/") .models =
      .ok { path := "models", base := "https://api.studio.nebius.ai/v1/" } :=
  ⟨by decide,
   (getEndpoint_paths "https://api.studio.nebius.ai/v1/" (by decide)).1,
   (getEndpoint_paths "https://api.studio.nebius.ai/v1/" (by decide)).2.2⟩

/-- C9 counterexample: an empty-string base URL is present (not unset),
yet the guard `!this.apiBase` is falsy-based, so endpoint resolution —
and `streamChat` — raise the configuration error, against the claim's
"no error is raised when a base URL is present". -/
theorem getEndpoint_empty_base_counterexample :
    getEndpoint (some "") Endpoint.models = .error noApiBaseError ∧
    streamChat none (some "") { model := "m" } []
      { jsonBody := none, events := [] } = .error noApiBaseError :=
  ⟨rfl, rfl⟩

/-- C9 (amended): with a falsy base URL — unset or the empty string — a
configuration error is raised before any network attempt (`streamChat`'s
result never depends on the transport response), and no error is raised
by resolution when a non-empty base URL is present. -/
theorem getEndpoint_requires_apiBase :
    (∀ e, getEndpoint none e = .error noApiBaseError) ∧
    (∀ e, getEndpoint (some "") e = .error noApiBaseError) ∧
    (∀ (base : String) (e : Endpoint), base ≠ "" →
        ∃ u, getEndpoint (some base) e = .ok u) ∧
    (∀ msw options messages resp,
        streamChat msw none options messages resp = .error noApiBaseError) ∧
    (∀ msw options messages resp,
        streamChat msw (some "") options messages resp = .error noApiBaseError) ∧
    (∀ msw options messages resp resp',
        streamChat msw none options messages resp =
          streamChat msw none options messages resp') ∧
    (∀ msw options messages resp resp',
        streamChat msw (some "") options messages resp =
          streamChat msw (some "") options messages resp') := by
  refine ⟨fun e => rfl, fun e => rfl, fun base e hbase => ?_,
    fun msw options messages resp => rfl, fun msw options messages resp => rfl,
    fun msw options messages resp resp' => rfl,
    fun msw options messages resp resp' => rfl⟩
  cases e with
  | chatCompletions =>
      exact ⟨{ path := "chat/completions", base := base },
        by simp [getEndpoint, Endpoint.name, hbase]⟩
  | completions =>
      exact ⟨{ path := "chat/completions", base := base },
        by simp [getEndpoint, Endpoint.name, hbase]⟩
  | models =>
      exact ⟨{ path := "models", base := base },
        by simp [getEndpoint, Endpoint.name, hbase]⟩

/-- C9 witness: resolution succeeds at the provider's default (non-empty)
base URL. -/
theorem getEndpoint_requires_apiBase_witness :
    ("https://api.studio.nebius.ai/v1/" : String) ≠ "" ∧
    (∃ u, getEndpoint (some "https://api.studio.nebius.ai/v1/") Endpoint.models =
      .ok u) :=
  ⟨by decide,
   getEndpoint_requires_apiBase.2.2.1 "https://api.studio.nebius.ai/v1/"
     Endpoint.models (by decide)⟩

/-- C10: the normalizer changes only the content: the role field of the
output message always equals the role field of the input, in all three
branches. -/
theorem convertMessage_preserves_role (m : ChatMessage) :
    (convertMessage m).role = m.role := by
  unfold convertMessage
  cases h : m.content with
  | str s => rfl
  | parts items =>
      by_cases hall : items.all (fun item => item.isText) = true
      · simp [hall]
      · simp [hall]

end Nebius
